import Mathlib

/-!
# Verification of the conversation routing and context-selection engine

Shallow embedding of the `discord_hack` repository's routing core:

* `router.py` — `normalize_message_ids`, `get_context_messages_by_ids`,
  `extract_context_messages`, `build_router_prompt` (embedded from source);
* `webhook_manager.py` — `WebhookManager._split_message` (embedded from source);
* `discord_bot.py` — `AITeamBot._handle_message_with_router` and its
  error fallback (embedded from source);
* `conversation_store.py` — this module is not part of the source tree we
  were given (only its callers and tests are), so its operations are
  modelled from the specification (each such definition is marked
  `Modelled from the spec:` in its doc comment).

Conventions: Python strings are Lean `String` (lengths and slices are in
characters, as in Python); timezone-aware timestamps are modelled at
one-second granularity as `Nat` (seconds since epoch); Python `None` is
`Option.none`; Python exceptions are `Except` values carrying the raised
exception's class name and payload.  External collaborators (the LLM
decision-maker, the Discord channel/webhook delivery layer) are inputs:
the decision-maker outcome is an `Except Unit RouterDecision` argument and
the delivery layer's acknowledgment message is an argument used wherever
the code stores a sent bot message.
-/

namespace DiscordHack

/-- Python `str.lower` restricted to ASCII, which is all the code compares. -/
def pyLower (s : String) : String :=
  String.mk (s.toList.map Char.toLower)

/-- Python truthiness of an `Optional[str]`: `None` and `""` are falsy. -/
def optNonempty : Option String → Bool
  | none => false
  | some s => s ≠ ""

/-- `ConversationMessage` from `conversation_store.py`.
Modelled from the spec: the module itself is absent from the source tree;
fields follow §3 of the specification (and the shapes exercised by the
repository's tests).  Timestamps are seconds since epoch. -/
structure ConversationMessage where
  id : String
  author_name : String
  author_id : String
  content : String
  timestamp : Nat
  channel_id : String
  is_bot : Bool
  persona_name : Option String
  reply_to_id : Option String
  mentions_user_ids : List String
  has_attachments : Bool
  attachment_types : List String
  has_embeds : Bool
deriving DecidableEq, Repr

/-- `ConversationThread` from `conversation_store.py`.
Modelled from the spec: ordered message sequence, derived id, timestamps,
mutable optional topic summary (§3). -/
structure ConversationThread where
  id : String
  channel_id : String
  created_at : Nat
  last_active : Nat
  messages : List ConversationMessage
  topic_summary : Option String
deriving DecidableEq, Repr

/-- `ConversationThread.get_recent_messages`.
Modelled from the spec: returns the thread's most recent `limit` messages
in storage order (§4.2 "its most recent N messages"). -/
def ConversationThread.get_recent_messages (t : ConversationThread) (limit : Nat) :
    List ConversationMessage :=
  t.messages.drop (t.messages.length - limit)

/-- `PersonaConfig` from `config.py` (source): persona metadata. -/
structure PersonaConfig where
  name : String
  display_name : String
  role : String
  avatar_url : String
  system_prompt : String
  knowledge_base_path : String
deriving DecidableEq, Repr

/-- `BotConfig` from `config.py` (source). -/
structure BotConfig where
  personas : List PersonaConfig
  default_knowledge_base : String
deriving DecidableEq, Repr

/-- `BotConfig.get_persona_by_name` from `config.py`: first persona whose
name matches case-insensitively, else `None`. -/
def BotConfig.get_persona_by_name (cfg : BotConfig) (name : String) :
    Option PersonaConfig :=
  cfg.personas.find? (fun p => pyLower p.name == pyLower name)

/-- `RouterDecision` from `router.py`: the structured output contract of
the external decision-maker. -/
structure RouterDecision where
  should_respond : Bool
  conversation_id : Option String
  suggested_persona : Option String
  relevant_message_ids : List String
  confidence : Float
  reasoning : String
  topic_summary : String

/-- `RouterConfig` from `router.py` with its default field values. -/
structure RouterConfig where
  model_name : String := "llama3.1-8b"
  confidence_threshold : Float := 0.5
  max_context_messages : Nat := 15
  max_recent_for_routing : Nat := 20
  conversation_stale_minutes : Nat := 30
  max_conversations_per_channel : Nat := 5
  enable_persona_suggestion : Bool := true
  enable_context_selection : Bool := true
  enable_proactive_interjection : Bool := false
  interjection_confidence_threshold : Float := 0.8

/-- A raised Python exception, as observed by callers: the exception
class's name together with the message-id payload interpolated into its
message (the only data the routing code puts in one). -/
structure PyError where
  className : String
  missingIds : List String
deriving DecidableEq, Repr

/-- Python `str.lstrip("#")`: drop every leading `'#'` character. -/
def lstripHash (s : String) : String :=
  String.mk (s.toList.dropWhile (fun c => c = '#'))

/-- `normalize_message_ids` from `router.py`: drop empty strings and the
case-insensitive sentinels `"null"`/`"none"`, strip leading `'#'`
characters, and drop ids that become empty after stripping. -/
def normalize_message_ids : List String → List String
  | [] => []
  | msg_id :: rest =>
    if msg_id = "" ∨ pyLower msg_id = "null" ∨ pyLower msg_id = "none" then
      normalize_message_ids rest
    else
      let clean_id := lstripHash msg_id
      if clean_id = "" then normalize_message_ids rest
      else clean_id :: normalize_message_ids rest

/-- `get_context_messages_by_ids` from `router.py`: matches in the
conversation's storage order, plus the ids with no match in requested
order. -/
def get_context_messages_by_ids (conversation : ConversationThread)
    (message_ids : List String) :
    List ConversationMessage × List String :=
  let context_messages :=
    conversation.messages.filter (fun msg => message_ids.contains msg.id)
  let found_ids := context_messages.map (fun msg => msg.id)
  let missing_ids := message_ids.filter (fun msg_id => !(found_ids.contains msg_id))
  (context_messages, missing_ids)

/-- `extract_context_messages` from `router.py`: normalization plus
retrieval; in strict mode a resolution failure raises `ValueError` with
the missing ids in its message. -/
def extract_context_messages (conversation : ConversationThread)
    (router_decision : RouterDecision) (strict : Bool) :
    Except PyError (List ConversationMessage) :=
  let normalized_ids := normalize_message_ids router_decision.relevant_message_ids
  if normalized_ids = [] then .ok []
  else
    let (context_messages, missing_ids) :=
      get_context_messages_by_ids conversation normalized_ids
    if missing_ids ≠ [] ∧ strict then
      .error { className := "ValueError", missingIds := missing_ids }
    else
      .ok context_messages

/-- `ConversationStore` from `conversation_store.py`.
Modelled from the spec: a process-wide, insertion-ordered mapping from
thread id to thread, with configured per-thread message bound, thread
count bound, and staleness threshold (§3, §4.1). -/
structure ConversationStore where
  conversations : List ConversationThread
  max_messages_per_conversation : Nat
  max_conversations : Nat
  stale_threshold_minutes : Nat
deriving DecidableEq, Repr

/-- Minimum `last_active` over a nonempty collection of threads. -/
def minLastActive (t : ConversationThread) : List ConversationThread → Nat
  | [] => t.last_active
  | u :: rest => min t.last_active (minLastActive u rest)

/-- Remove the first thread whose `last_active` equals `v`. -/
def removeFirstWithLA (v : Nat) : List ConversationThread → List ConversationThread
  | [] => []
  | t :: rest => if t.last_active = v then rest else t :: removeFirstWithLA v rest

/-- Remove the stalest thread: the first one attaining the minimum
`last_active`. -/
def removeStalest : List ConversationThread → List ConversationThread
  | [] => []
  | t :: rest => removeFirstWithLA (minLastActive t rest) (t :: rest)

/-- Evict stalest threads until at most `maxConvs` remain.
Modelled from the spec: "when exceeded, the store evicts the stalest
threads first (oldest `last_active`)" (§3).  `fuel` bounds the loop; it is
always called with the list length. -/
def evictLoop (maxConvs : Nat) : Nat → List ConversationThread → List ConversationThread
  | 0, l => l
  | fuel + 1, l => if l.length ≤ maxConvs then l else evictLoop maxConvs fuel (removeStalest l)

/-- `ConversationStore.get_conversation`.
Modelled from the spec: pure lookup by id, no side effect (§4.1). -/
def ConversationStore.get_conversation (store : ConversationStore) (cid : String) :
    Option ConversationThread :=
  store.conversations.find? (fun t => t.id == cid)

/-- `ConversationStore.create_conversation`.
Modelled from the spec: always creates a fresh thread with id
`{channel_id}_{unix_timestamp}` seeded with exactly one message; inserts
it, then evicts least-recently-active threads while over the
`max_conversations` bound (§3, §4.1). -/
def ConversationStore.create_conversation (store : ConversationStore)
    (channel_id : String) (seed : ConversationMessage) (now : Nat) :
    ConversationThread × ConversationStore :=
  let t : ConversationThread :=
    { id := channel_id ++ "_" ++ toString now
      channel_id := channel_id
      created_at := now
      last_active := now
      messages := [seed]
      topic_summary := none }
  let convs := store.conversations ++ [t]
  (t, { store with conversations := evictLoop store.max_conversations convs.length convs })

/-- Append a message to one thread: update `last_active`, keep at most
`maxMsgs` newest messages.  Modelled from the spec: trimming drops oldest
entries first (§4.1). -/
def appendToThread (t : ConversationThread) (msg : ConversationMessage)
    (now maxMsgs : Nat) : ConversationThread :=
  let msgs := t.messages ++ [msg]
  { t with messages := msgs.drop (msgs.length - maxMsgs), last_active := now }

/-- `ConversationStore.add_message`.
Modelled from the spec: appends to the named thread, updates
`last_active`, trims to the per-thread bound; a nonexistent id is a
logged no-op (§4.1). -/
def ConversationStore.add_message (store : ConversationStore) (thread_id : String)
    (msg : ConversationMessage) (now : Nat) : ConversationStore :=
  { store with
    conversations := store.conversations.map (fun t =>
      if t.id == thread_id then appendToThread t msg now store.max_messages_per_conversation
      else t) }

/-- `ConversationStore.get_active_conversations`.
Modelled from the spec: threads of the channel whose `last_active` is
within the staleness threshold, in the store's (insertion) order (§3,
§4.1). -/
def ConversationStore.get_active_conversations (store : ConversationStore)
    (channel_id : String) (now : Nat) : List ConversationThread :=
  store.conversations.filter (fun t =>
    t.channel_id == channel_id
      && now - t.last_active ≤ store.stale_threshold_minutes * 60)

/-- Most-recently-active thread of a list (first among ties), if any. -/
def mostRecentlyActive : List ConversationThread → Option ConversationThread
  | [] => none
  | t :: rest => some (rest.foldl (fun best u =>
      if u.last_active > best.last_active then u else best) t)

/-- `ConversationStore.get_or_create_conversation`.
Modelled from the spec: append to the most-recently-active active thread
of the channel if one exists, otherwise create a new thread (§4.1). -/
def ConversationStore.get_or_create_conversation (store : ConversationStore)
    (channel_id : String) (msg : ConversationMessage) (now : Nat) :
    ConversationThread × ConversationStore :=
  match mostRecentlyActive (store.get_active_conversations channel_id now) with
  | some c =>
      (appendToThread c msg now store.max_messages_per_conversation,
       store.add_message c.id msg now)
  | none => store.create_conversation channel_id msg now

/-- Python whitespace for `str.strip` and (ASCII) `\s` in regexes. -/
def isPySpace (c : Char) : Bool :=
  c = ' ' || c = '\t' || c = '\n' || c = '\r' || c = '\x0b' || c = '\x0c'

/-- Python `str.strip()` on a character list: drop leading and trailing
whitespace. -/
def pyStripChars (l : List Char) : List Char :=
  ((l.reverse.dropWhile isPySpace).reverse).dropWhile isPySpace

/-- Python `str.strip()`. -/
def pyStrip (s : String) : String :=
  String.mk (pyStripChars s.toList)

/-- Sentence-ending punctuation of the `[.!?]+\s+` pattern in
`WebhookManager._split_message`. -/
def isSentencePunct (c : Char) : Bool :=
  c = '.' || c = '!' || c = '?'

/-- `re.split(r"([.!?]+\s+)", line)`: split at maximal runs of
sentence punctuation followed by whitespace, keeping each separator as its
own element (the pattern is a capturing group).  `fuel` bounds the scan;
it is always called with the line length. -/
def sentenceSplitAux : Nat → List Char → List Char → List (List Char)
  | 0, l, acc => [acc.reverse ++ l]
  | fuel + 1, l, acc =>
    match l with
    | [] => [acc.reverse]
    | c :: rest =>
      if isSentencePunct c then
        let puncts := (c :: rest).takeWhile isSentencePunct
        let afterPuncts := (c :: rest).dropWhile isSentencePunct
        let spaces := afterPuncts.takeWhile isPySpace
        if spaces.isEmpty then sentenceSplitAux fuel rest (c :: acc)
        else
          acc.reverse :: (puncts ++ spaces) ::
            sentenceSplitAux fuel (afterPuncts.dropWhile isPySpace) []
      else sentenceSplitAux fuel rest (c :: acc)

/-- `re.split(r"([.!?]+\s+)", line)`. -/
def sentenceSplit (l : List Char) : List (List Char) :=
  sentenceSplitAux l.length l []

/-- Python `str.split(sep)` for a one-character separator: splitting
`""` gives `[""]`, and a trailing separator yields a trailing `""`. -/
def pySplit (sep : Char) : List Char → List (List Char)
  | [] => [[]]
  | c :: rest =>
    if c = sep then [] :: pySplit sep rest
    else
      match pySplit sep rest with
      | [] => [[c]]
      | r :: rs => (c :: r) :: rs

/-- The sentence loop of `_split_message`, entered when a single line is
longer than `max_length`: accumulate sentences, flushing the current
chunk when a sentence would overflow it, and hard-slicing a sentence that
alone exceeds the limit. -/
def sentenceLoop (maxLen : Nat) (st : List (List Char) × List Char)
    (sentence : List Char) : List (List Char) × List Char :=
  let (chunks, current) := st
  if current.length + sentence.length > maxLen then
    if current ≠ [] then (chunks ++ [pyStripChars current], sentence)
    else (chunks ++ [sentence.take maxLen], sentence.drop maxLen)
  else (chunks, current ++ sentence)

/-- The per-line loop of `_split_message` over the `"\n"`-split lines,
carrying the accumulated chunks and the current chunk. -/
def splitLinesLoop (maxLen : Nat) :
    List (List Char) → List (List Char) → List Char → List (List Char)
  | [], chunks, current =>
      if current ≠ [] then chunks ++ [pyStripChars current] else chunks
  | line :: rest, chunks, current =>
      if line.length > maxLen then
        let (chunks', current') := (sentenceSplit line).foldl (sentenceLoop maxLen) (chunks, current)
        splitLinesLoop maxLen rest chunks' current'
      else if current.length + line.length + 1 > maxLen then
        splitLinesLoop maxLen rest
          (if current ≠ [] then chunks ++ [pyStripChars current] else chunks)
          (line ++ ['\n'])
      else splitLinesLoop maxLen rest chunks (current ++ line ++ ['\n'])

/-- `WebhookManager._split_message` from `webhook_manager.py`: split a
message into chunks for Discord's character limit (default 2000),
splitting at line boundaries, then sentence boundaries for oversized
lines, then hard character slicing. -/
def _split_message (content : String) (maxLength : Nat) : List String :=
  if content.length ≤ maxLength then [content]
  else
    (splitLinesLoop maxLength (pySplit '\n' content.toList) [] []).map
      (fun l => String.mk l)

/-- Zero-padded two-digit rendering of a number below 100. -/
def pad2 (n : Nat) : String :=
  if n < 10 then "0" ++ toString n else toString n

/-- `strftime("%H:%M:%S")` on an epoch-seconds timestamp. -/
def formatHMS (t : Nat) : String :=
  pad2 (t / 3600 % 24) ++ ":" ++ pad2 (t / 60 % 60) ++ ":" ++ pad2 (t % 60)

/-- `strftime("%H:%M")` on an epoch-seconds timestamp. -/
def formatHM (t : Nat) : String :=
  pad2 (t / 3600 % 24) ++ ":" ++ pad2 (t / 60 % 60)

/-- `f"{x:.1f}"` for a whole number of seconds (timestamps are modelled at
one-second granularity, so the fraction digit is always 0). -/
def format1f (d : Int) : String :=
  toString d ++ ".0"

/-- One history line of the router prompt:
`  - ID:{id} | {author}: {preview}{metadata}`. -/
def renderMessageLine (msg : ConversationMessage) : String :=
  let msg_preview := String.mk (msg.content.toList.take 150)
  let author :=
    if msg.is_bot && optNonempty msg.persona_name then
      msg.persona_name.getD "" ++ " (bot)"
    else msg.author_name
  let metadata_hints :=
    (if optNonempty msg.reply_to_id then ["reply"] else [])
      ++ (if msg.has_attachments then
            [toString msg.attachment_types.length ++ " files"] else [])
  let metadata_str :=
    if metadata_hints ≠ [] then
      " [" ++ String.intercalate ", " metadata_hints ++ "]"
    else ""
  "  - ID:" ++ msg.id ++ " | " ++ author ++ ": " ++ msg_preview ++ metadata_str

/-- The per-conversation section of the router prompt: header lines, then
one line per recent message, skipping the current message, then a blank
line. -/
def renderConversation (current_message : ConversationMessage)
    (acc : List String) (conv : ConversationThread) : List String :=
  let config : RouterConfig := {}
  let recent := conv.get_recent_messages config.max_recent_for_routing
  let acc := acc ++ ["### Conversation: " ++ conv.id]
  let acc := acc ++ (if optNonempty conv.topic_summary then
      ["Topic: " ++ conv.topic_summary.getD ""] else [])
  let acc := acc ++ ["Last active: " ++ formatHM conv.last_active]
  let acc := acc ++
    ["Recent " ++ toString recent.length ++ " messages (for context selection):"]
  let acc := recent.foldl (fun acc msg =>
      if msg.id == current_message.id then acc
      else acc ++ [renderMessageLine msg]) acc
  acc ++ [""]

/-- The lines of the router prompt shared by the embedding and its
filtered restatement: current-message section, conversation sections
(rendered by `render`), task footer. -/
def routerPromptParts (current_message : ConversationMessage)
    (active_conversations : List ConversationThread) (current_time : Nat)
    (render : List String → ConversationThread → List String) : List String :=
  let prompt_parts :=
    [ "# Task: Route this message to a conversation and select relevant context"
    , ""
    , "## Current Message"
    , "From: " ++ current_message.author_name
    , "Content: " ++ current_message.content
    , "Message time: " ++ formatHMS current_message.timestamp
    , "Current time: " ++ formatHMS current_time
    , "Time since message: "
        ++ format1f ((current_time : Int) - (current_message.timestamp : Int)) ++ "s" ]
  let prompt_parts := prompt_parts ++
    (if optNonempty current_message.reply_to_id then
      ["Replying to: message ID " ++ current_message.reply_to_id.getD ""] else [])
  let prompt_parts := prompt_parts ++
    (if current_message.has_attachments then
      ["Attachments: " ++ String.intercalate ", " (current_message.attachment_types.take 3)]
     else [])
  let prompt_parts := prompt_parts ++ ["", "## Active Conversations in Channel"]
  let prompt_parts :=
    if active_conversations.isEmpty then
      prompt_parts ++
        ["No active conversations. This will start a new conversation (conversation_id=null)."]
    else active_conversations.foldl render prompt_parts
  prompt_parts ++
    [ "## Your Task"
    , "1. Determine which conversation this message belongs to (return conversation_id) OR start new (return null)"
    , "2. Suggest which persona should respond (or null if none fit)"
    , "3. Select message IDs that provide relevant context from that conversation (or empty list if none needed)"
    , "4. Provide reasoning for your decisions" ]

/-- `build_router_prompt` from `router.py`: render the routing task for
the decision-maker, showing the current message and each active
conversation's recent history.  The defaulting `current_time` parameter
is passed explicitly. -/
def build_router_prompt (current_message : ConversationMessage)
    (active_conversations : List ConversationThread) (current_time : Nat) : String :=
  String.intercalate "\n"
    (routerPromptParts current_message active_conversations current_time
      (renderConversation current_message))

/-- Restatement of the per-conversation section following the spec's
words: the displayed history is the recent list with the current message
filtered out up front, each surviving message rendered unconditionally. -/
def renderConversationFiltered (current_message : ConversationMessage)
    (acc : List String) (conv : ConversationThread) : List String :=
  let config : RouterConfig := {}
  let recent := conv.get_recent_messages config.max_recent_for_routing
  let acc := acc ++ ["### Conversation: " ++ conv.id]
  let acc := acc ++ (if optNonempty conv.topic_summary then
      ["Topic: " ++ conv.topic_summary.getD ""] else [])
  let acc := acc ++ ["Last active: " ++ formatHM conv.last_active]
  let acc := acc ++
    ["Recent " ++ toString recent.length ++ " messages (for context selection):"]
  let acc := acc ++
    ((recent.filter (fun msg => !(msg.id == current_message.id))).map renderMessageLine)
  acc ++ [""]

/-- Restatement of `build_router_prompt` following the spec's words,
differing only in that each thread's displayed history is pre-filtered to
exclude the current message. -/
def buildRouterPromptFiltered (current_message : ConversationMessage)
    (active_conversations : List ConversationThread) (current_time : Nat) : String :=
  String.intercalate "\n"
    (routerPromptParts current_message active_conversations current_time
      (renderConversationFiltered current_message))

/-- Word character for the regex `\b` boundary (`[A-Za-z0-9_]`). -/
def isWordChar (c : Char) : Bool :=
  c.isAlphanum || c = '_'

/-- `\b` holds after a match ending in `prev` and followed by `rest`:
exactly one side of the position is a word character. -/
def boundaryAfter (prev : Char) (rest : List Char) : Bool :=
  match rest with
  | [] => isWordChar prev
  | c :: _ => isWordChar prev != isWordChar c

/-- Scanner for `re.sub(rf"@{re.escape(name)}\b", "", content, re.IGNORECASE)`:
delete every occurrence of `@name` (case-insensitive, `name` taken
literally) that ends at a word boundary.  `fuel` bounds the scan; it is
always called with the content length. -/
def removeMentionAux (nameLower : List Char) : Nat → List Char → List Char
  | 0, l => l
  | _ + 1, [] => []
  | fuel + 1, c :: rest =>
    if c = '@' && (rest.take nameLower.length).map Char.toLower == nameLower
        && boundaryAfter (nameLower.getLastD '@') (rest.drop nameLower.length) then
      removeMentionAux nameLower fuel (rest.drop nameLower.length)
    else c :: removeMentionAux nameLower fuel rest

/-- `re.sub(rf"@{re.escape(name)}\b", "", content, re.IGNORECASE)` from
`_handle_message_with_router` (and `detect_persona_mention`). -/
def removeMention (name content : String) : String :=
  String.mk (removeMentionAux (pyLower name).toList content.toList.length content.toList)

/-- `str.replace(pat, "", 1)`: delete the first occurrence of `pat`. -/
def removeFirstOccurrence (pat : String) (s : String) : String :=
  let rec go : Nat → List Char → List Char
    | 0, l => l
    | _ + 1, [] => []
    | fuel + 1, c :: rest =>
      if pat.toList.isPrefixOf (c :: rest) then (c :: rest).drop pat.toList.length
      else c :: go fuel rest
  String.mk (go s.toList.length s.toList)

/-- Replace the thread with the same id (mirrors Python's in-place
mutation of a thread object aliased by the store's mapping). -/
def replaceThread (store : ConversationStore) (t : ConversationThread) :
    ConversationStore :=
  { store with
    conversations := store.conversations.map (fun u => if u.id == t.id then t else u) }

/-- Observable outcome of handling one incoming message: which response
path ran (with the persona attribution and router-selected context passed
to it), or that the handler finished without sending anything. -/
inductive HandlerOutcome where
  | noResponse
  | respondedPersona (personaName : String) (selectionType : String)
      (context : List ConversationMessage)
  | respondedDefault (selectionType : String) (context : List ConversationMessage)
  | greetingPersona (personaName : String)
  | greetingBot
  | errorApology (personaName : Option String)
  | errorSilent
  | fellThrough
deriving DecidableEq, Repr

/-- Whether an outcome sent a response to the channel. -/
def responseSent : HandlerOutcome → Bool
  | .noResponse => false
  | .errorSilent => false
  | .fellThrough => false
  | _ => true

/-- The conversation-resolution part of the STORE step
(`_handle_message_with_router` lines 674-697): append to the thread the
decision names if it resolves, otherwise (dangling or absent id) create a
new thread seeded with the message. -/
def storeRouteDecisionCore (store : ConversationStore)
    (conv_message : ConversationMessage) (decision : RouterDecision) (now : Nat) :
    ConversationThread × ConversationStore :=
  if optNonempty decision.conversation_id then
    match store.get_conversation (decision.conversation_id.getD "") with
    | some conversation =>
        (appendToThread conversation conv_message now store.max_messages_per_conversation,
         store.add_message conversation.id conv_message now)
    | none => store.create_conversation conv_message.channel_id conv_message now
  else store.create_conversation conv_message.channel_id conv_message now

/-- The STORE step of `_handle_message_with_router` (lines 674-701):
resolve the decision's `conversation_id` against the store, then
overwrite the thread's topic summary if the decision carries one. -/
def storeRouteDecision (store : ConversationStore) (conv_message : ConversationMessage)
    (decision : RouterDecision) (now : Nat) :
    ConversationThread × ConversationStore :=
  let p := storeRouteDecisionCore store conv_message decision now
  if decision.topic_summary ≠ "" then
    let conversation := { p.1 with topic_summary := some decision.topic_summary }
    (conversation, replaceThread p.2 conversation)
  else p

/-- The lenient context resolution of the dispatch phase
(`_handle_message_with_router` lines 719-722): strict mode off, so a
resolution failure cannot occur and the resolved subset is used. -/
def lenientContext (conversation : ConversationThread) (decision : RouterDecision) :
    List ConversationMessage :=
  match extract_context_messages conversation decision false with
  | .ok ms => ms
  | .error _ => []

/-- The SELECT_PERSONA/DISPATCH phase of `_handle_message_with_router`
(lines 719-828), reached once the decision (after any safety override)
allows responding: resolve lenient context, pick the responder path, send
and record the response.  The delivery layer's acknowledgment of the sent
message is the `ack` argument; responder and delivery collaborators are
modelled as succeeding, per the spec's external-interface contract. -/
def dispatchPhase (cfg : BotConfig) (store : ConversationStore)
    (conversation : ConversationThread) (conv_message : ConversationMessage)
    (explicit_persona : Option PersonaConfig) (is_mentioned : Bool)
    (mention_string : Option String) (decision : RouterDecision)
    (ack : ConversationMessage) (now : Nat) :
    ConversationStore × HandlerOutcome :=
  let context_messages := lenientContext conversation decision
  match explicit_persona with
  | some p =>
      let query := pyStrip (removeMention p.name conv_message.content)
      let stored := { ack with persona_name := some p.name }
      if query = "" then
        ((store.get_or_create_conversation stored.channel_id stored now).2,
         .greetingPersona p.name)
      else
        ((store.get_or_create_conversation stored.channel_id stored now).2,
         .respondedPersona p.name "mention" context_messages)
  | none =>
    if is_mentioned && mention_string.isSome then
      let query := pyStrip (removeFirstOccurrence (mention_string.getD "") conv_message.content)
      if query = "" then
        let stored := { ack with persona_name := none }
        ((store.get_or_create_conversation stored.channel_id stored now).2, .greetingBot)
      else
        match (if optNonempty decision.suggested_persona then
                cfg.get_persona_by_name (decision.suggested_persona.getD "")
               else none) with
        | some p =>
            let stored := { ack with persona_name := some p.name }
            ((store.get_or_create_conversation stored.channel_id stored now).2,
             .respondedPersona p.name "router" context_messages)
        | none =>
            let stored := { ack with persona_name := none }
            (replaceThread store
               (appendToThread conversation stored now store.max_messages_per_conversation),
             .respondedDefault "router" context_messages)
    else if decision.should_respond then
      match (if optNonempty decision.suggested_persona then
              cfg.get_persona_by_name (decision.suggested_persona.getD "")
             else none) with
      | some p =>
          let stored := { ack with persona_name := some p.name }
          ((store.get_or_create_conversation stored.channel_id stored now).2,
           .respondedPersona p.name "proactive" context_messages)
      | none =>
          let stored := { ack with persona_name := none }
          (replaceThread store
             (appendToThread conversation stored now store.max_messages_per_conversation),
           .respondedDefault "proactive" context_messages)
    else (store, .fellThrough)

/-- `_handle_router_error_fallback` from `discord_bot.py`: send a
best-effort apology (attributed to the explicitly mentioned persona when
there is one) and record it via `get_or_create_conversation`. -/
def _handle_router_error_fallback (store : ConversationStore)
    (explicit_persona : Option PersonaConfig) (ack : ConversationMessage)
    (now : Nat) : ConversationStore × HandlerOutcome :=
  let personaName := explicit_persona.map (fun p => p.name)
  let stored := { ack with persona_name := personaName }
  ((store.get_or_create_conversation stored.channel_id stored now).2,
   .errorApology personaName)

/-- `AITeamBot._handle_message_with_router` from `discord_bot.py`: the
routing orchestrator for one incoming message.  The external
decision-maker invocation is the `router_result` argument (`.error` when
it raises); state threading is explicit. -/
def _handle_message_with_router (cfg : BotConfig) (store : ConversationStore)
    (conv_message : ConversationMessage) (explicit_persona : Option PersonaConfig)
    (is_mentioned : Bool) (mention_string : Option String)
    (router_result : Except Unit RouterDecision) (ack : ConversationMessage)
    (now : Nat) : ConversationStore × HandlerOutcome :=
  match router_result with
  | .error _ =>
      if is_mentioned then _handle_router_error_fallback store explicit_persona ack now
      else (store, .errorSilent)
  | .ok decision =>
      let p := storeRouteDecision store conv_message decision now
      if ¬ decision.should_respond then
        if is_mentioned then
          dispatchPhase cfg p.2 p.1 conv_message explicit_persona
            is_mentioned mention_string { decision with should_respond := true } ack now
        else (p.2, .noResponse)
      else
        dispatchPhase cfg p.2 p.1 conv_message explicit_persona
          is_mentioned mention_string decision ack now

/-! ### Concrete values used by witnesses and counterexamples -/

/-- A message with id `"1"` (the thread of the documented
`get_context_messages_by_ids` example). -/
def exampleMessage1 : ConversationMessage :=
  { id := "1", author_name := "alice", author_id := "10", content := "hello"
    timestamp := 100, channel_id := "chan", is_bot := false, persona_name := none
    reply_to_id := none, mentions_user_ids := [], has_attachments := false
    attachment_types := [], has_embeds := false }

/-- A thread containing only the message with id `"1"`. -/
def exampleThread1 : ConversationThread :=
  { id := "t1", channel_id := "chan", created_at := 100, last_active := 100
    messages := [exampleMessage1], topic_summary := none }

/-- A router decision requesting ids `"1"`, `"2"`, `"3"`. -/
def exampleDecision123 : RouterDecision :=
  { should_respond := true, conversation_id := none, suggested_persona := none
    relevant_message_ids := ["1", "2", "3"], confidence := 1.0
    reasoning := "r", topic_summary := "" }

/-- An empty store with the bounds the repository's tests use. -/
def exampleStore : ConversationStore :=
  { conversations := [], max_messages_per_conversation := 50
    max_conversations := 100, stale_threshold_minutes := 30 }

/-- A bot configuration with no personas. -/
def exampleBotConfig : BotConfig :=
  { personas := [], default_knowledge_base := "kbs/default.txt" }

/-- A router decision that abstains from responding. -/
def exampleDecisionNoRespond : RouterDecision :=
  { should_respond := false, conversation_id := none, suggested_persona := none
    relevant_message_ids := [], confidence := 0.5
    reasoning := "quiet", topic_summary := "" }

/-- Restatement of claim C5's words: remove exactly the empty strings and
the case-insensitive sentinels, then strip one leading `'#'` from each
survivor. -/
def normalizeMessageIdsClaim (ids : List String) : List String :=
  (ids.filter (fun i =>
      !(i == "" || pyLower i == "null" || pyLower i == "none"))).map
    (fun i => match i.toList with
      | '#' :: rest => String.mk rest
      | _ => i)

/-- The context messages that resolve: thread messages whose id survives
normalization of the decision's requested ids. -/
def resolvedContext (conv : ConversationThread) (d : RouterDecision) :
    List ConversationMessage :=
  conv.messages.filter (fun m =>
    (normalize_message_ids d.relevant_message_ids).contains m.id)

/-- The normalized requested ids that resolve to no message of the
thread. -/
def missingContextIds (conv : ConversationThread) (d : RouterDecision) :
    List String :=
  (normalize_message_ids d.relevant_message_ids).filter (fun i =>
    !(conv.messages.any (fun m => m.id == i)))

/-- A 2004-character single line, `"b. "` followed by 2001 `'c'`s: the
sentence loop flushes `"b."` and then holds the whole oversized second
sentence as the current chunk, which is emitted without re-checking its
length. -/
def forceSplitInput : String :=
  String.mk ('b' :: '.' :: ' ' :: List.replicate 2001 'c')

/-! ### Helper lemmas -/

theorem foldl_skip_eq_filter_map (cur : ConversationMessage)
    (msgs : List ConversationMessage) (acc : List String) :
    msgs.foldl (fun acc msg =>
        if msg.id == cur.id then acc else acc ++ [renderMessageLine msg]) acc
      = acc ++ (msgs.filter (fun msg => !(msg.id == cur.id))).map renderMessageLine := by
  induction msgs generalizing acc with
  | nil => simp
  | cons m rest ih =>
    rw [List.foldl_cons, ih, List.filter_cons]
    by_cases h : m.id = cur.id
    · simp [h]
    · simp [h]

theorem renderConversation_eq (cur : ConversationMessage) (acc : List String)
    (conv : ConversationThread) :
    renderConversation cur acc conv = renderConversationFiltered cur acc conv := by
  simp only [renderConversation, renderConversationFiltered, foldl_skip_eq_filter_map]

theorem foldl_renderConversation_eq (cur : ConversationMessage) :
    ∀ (convs : List ConversationThread) (acc : List String),
      convs.foldl (renderConversation cur) acc
        = convs.foldl (renderConversationFiltered cur) acc := by
  intro convs
  induction convs with
  | nil => intro acc; rfl
  | cons c rest ih =>
      intro acc
      rw [List.foldl_cons, List.foldl_cons, renderConversation_eq, ih]

/-- C7: for every current message, active-conversation list and time, the
text of `build_router_prompt` contains no history line for the current
message: it equals the variant whose per-thread recent lists are
pre-filtered to exclude every message whose id equals the current
message's id. -/
theorem build_router_prompt_excludes_current
    (cur : ConversationMessage) (convs : List ConversationThread) (now : Nat) :
    build_router_prompt cur convs now = buildRouterPromptFiltered cur convs now := by
  unfold build_router_prompt buildRouterPromptFiltered routerPromptParts
  by_cases h : convs.isEmpty
  · simp [h]
  · simp [h, foldl_renderConversation_eq]

/-- C5 counterexample: the id `"#"` is neither empty nor a sentinel, yet
`normalize_message_ids` removes it entirely (Python's `lstrip("#")` takes
every leading `'#'` and the emptied id is dropped), whereas the claim's
reading keeps it as `""`. -/
theorem normalize_message_ids_hash_counterexample :
    normalize_message_ids ["#"] = []
    ∧ ¬("#" = "" ∨ pyLower "#" = "null" ∨ pyLower "#" = "none")
    ∧ normalizeMessageIdsClaim ["#"] = [""] := by
  refine ⟨rfl, by decide, rfl⟩

/-- C5 (amended): `normalize_message_ids` removes empty strings, the
case-insensitive sentinels `"null"`/`"none"`, and any id consisting only
of `'#'` characters; it strips all leading `'#'` characters from each
surviving id and preserves their relative order; and
`normalize_message_ids ["123","null","#456","none",""] = ["123","456"]`. -/
theorem normalize_message_ids_spec :
    (∀ ids : List String,
      normalize_message_ids ids
        = (ids.filter (fun i =>
            !(i == "" || pyLower i == "null" || pyLower i == "none")
              && lstripHash i != "")).map lstripHash)
    ∧ normalize_message_ids ["123", "null", "#456", "none", ""] = ["123", "456"] := by
  constructor
  · intro ids
    induction ids with
    | nil => rfl
    | cons i rest ih =>
      simp only [normalize_message_ids]
      split_ifs with h1 h2
      · have hb : (!(i == "" || pyLower i == "null" || pyLower i == "none")
            && lstripHash i != "") = false := by
          rcases h1 with h | h | h <;> simp [h]
        simp only [List.filter_cons, hb]
        rw [if_neg (by simp)]
        exact ih
      · have hb : (!(i == "" || pyLower i == "null" || pyLower i == "none")
            && lstripHash i != "") = false := by
          simp [h2]
        simp only [List.filter_cons, hb]
        rw [if_neg (by simp)]
        exact ih
      · push_neg at h1
        have hb : (!(i == "" || pyLower i == "null" || pyLower i == "none")
            && lstripHash i != "") = true := by
          simp [h1.1, h1.2.1, h1.2.2, h2]
        simp only [List.filter_cons, hb]
        simp [ih]
  · rfl

/-- C6: `get_context_messages_by_ids` returns the thread messages whose
id occurs in the request, as a subsequence of the thread's storage order,
and the requested ids matching no message, as a subsequence of the
request order; on a thread holding only id `"1"` and request
`["1","2","3"]` the result is `([message 1], ["2","3"])`. -/
theorem get_context_messages_by_ids_spec :
    (∀ (conv : ConversationThread) (ids : List String),
       (get_context_messages_by_ids conv ids).1.Sublist conv.messages
       ∧ (∀ m, m ∈ (get_context_messages_by_ids conv ids).1
            ↔ m ∈ conv.messages ∧ m.id ∈ ids)
       ∧ (get_context_messages_by_ids conv ids).2.Sublist ids
       ∧ (∀ i, i ∈ (get_context_messages_by_ids conv ids).2
            ↔ i ∈ ids ∧ ∀ m ∈ conv.messages, m.id ≠ i))
    ∧ get_context_messages_by_ids exampleThread1 ["1", "2", "3"]
        = ([exampleMessage1], ["2", "3"]) := by
  constructor
  · intro conv ids
    refine ⟨List.filter_sublist _, ?_, List.filter_sublist _, ?_⟩
    · intro m
      simp [get_context_messages_by_ids, List.mem_filter, List.contains, List.elem_iff]
    · intro i
      simp only [get_context_messages_by_ids, List.mem_filter, List.contains,
        Bool.not_eq_true', Bool.eq_false_iff, ne_eq, List.elem_iff, List.mem_map,
        List.mem_filter, not_exists]
      constructor
      · rintro ⟨hi, hnone⟩
        refine ⟨hi, fun m hm heq => hnone m ⟨⟨hm, ?_⟩, heq⟩⟩
        simp [List.elem_iff, heq, hi]
      · rintro ⟨hi, hnomatch⟩
        refine ⟨hi, fun m h => ?_⟩
        exact hnomatch m h.1.1 h.2
  · rfl

/-- C6 witness: in the documented example, `"2"` is reported missing
because no message of the thread has that id. -/
theorem get_context_messages_by_ids_spec_witness :
    "2" ∈ (get_context_messages_by_ids exampleThread1 ["1", "2", "3"]).2 :=
  ((get_context_messages_by_ids_spec.1 exampleThread1 ["1", "2", "3"]).2.2.2 "2").mpr
    ⟨by decide, by decide⟩

theorem code_missing_eq_missingContextIds (conv : ConversationThread)
    (norm : List String) :
    norm.filter (fun i =>
        !(((conv.messages.filter (fun m => norm.contains m.id)).map
            (fun m => m.id)).contains i))
      = norm.filter (fun i => !(conv.messages.any (fun m => m.id == i))) := by
  apply List.filter_congr
  intro i hi
  congr 1
  rw [Bool.eq_iff_iff]
  simp only [List.contains, List.elem_iff, List.mem_map,
    List.mem_filter, List.any_eq_true, beq_iff_eq]
  constructor
  · rintro ⟨m, ⟨hm, -⟩, heq⟩
    exact ⟨m, hm, heq⟩
  · rintro ⟨m, hm, heq⟩
    exact ⟨m, ⟨hm, by simp [List.elem_iff, heq, hi]⟩, heq⟩

/-- C4 counterexample: in strict mode on a thread holding only id `"1"`
and a decision requesting `["1","2","3"]`, `extract_context_messages`
fails with a `ValueError` — there is no `ContextResolutionError` in the
code, so the failure's exception class is not `ContextResolutionError`. -/
theorem extract_context_messages_error_class_counterexample :
    extract_context_messages exampleThread1 exampleDecision123 true
      = .error { className := "ValueError", missingIds := ["2", "3"] }
    ∧ "ValueError" ≠ "ContextResolutionError" := by
  refine ⟨rfl, by decide⟩

/-- C4 (amended): `extract_context_messages` in lenient mode never fails
and returns exactly the requested messages that resolve in the thread;
in strict mode it fails — with a `ValueError` carrying the missing ids —
exactly when at least one normalized id fails to resolve, and otherwise
returns the resolved messages. -/
theorem extract_context_messages_spec :
    ∀ (conv : ConversationThread) (d : RouterDecision),
      extract_context_messages conv d false = .ok (resolvedContext conv d)
      ∧ (missingContextIds conv d = [] →
          extract_context_messages conv d true = .ok (resolvedContext conv d))
      ∧ (missingContextIds conv d ≠ [] →
          extract_context_messages conv d true
            = .error { className := "ValueError"
                       missingIds := missingContextIds conv d }) := by
  intro conv d
  by_cases h : normalize_message_ids d.relevant_message_ids = []
  · have hres : resolvedContext conv d = [] := by
      simp [resolvedContext, h, List.contains]
    have hmiss : missingContextIds conv d = [] := by
      simp [missingContextIds, h]
    refine ⟨?_, fun _ => ?_, fun hne => absurd hmiss hne⟩ <;>
      simp [extract_context_messages, h, hres]
  · have hcode :
        ∀ strict, extract_context_messages conv d strict
          = if missingContextIds conv d ≠ [] ∧ strict = true then
              .error { className := "ValueError"
                       missingIds := missingContextIds conv d }
            else .ok (resolvedContext conv d) := by
      intro strict
      simp only [extract_context_messages, get_context_messages_by_ids, if_neg h,
        code_missing_eq_missingContextIds]
      rfl
    refine ⟨?_, fun hmiss => ?_, fun hne => ?_⟩
    · rw [hcode false]
      simp
    · rw [hcode true]
      simp [hmiss]
    · rw [hcode true]
      simp [hne]

/-- C4 witness: the amended strict-mode clause at the concrete example
(ids `"2"`, `"3"` missing). -/
theorem extract_context_messages_spec_witness :
    extract_context_messages exampleThread1 exampleDecision123 true
      = .error { className := "ValueError", missingIds := ["2", "3"] } := by
  have h := (extract_context_messages_spec exampleThread1 exampleDecision123).2.2
    (by decide)
  simpa using h

/-- C9: whatever `extract_context_messages` returns successfully, in
either strict mode, is a subsequence of the thread's stored messages
(storage order, each stored occurrence used at most once), regardless of
duplicates or ordering in the decision's `relevant_message_ids`. -/
theorem extract_context_messages_sublist :
    ∀ (conv : ConversationThread) (d : RouterDecision) (strict : Bool)
      (ms : List ConversationMessage),
      extract_context_messages conv d strict = .ok ms → ms.Sublist conv.messages := by
  intro conv d strict ms h
  simp only [extract_context_messages, get_context_messages_by_ids] at h
  split_ifs at h with h1 h2
  all_goals cases h
  all_goals first
  | exact List.nil_sublist _
  | exact List.filter_sublist _

/-- C9 witness: the lenient extraction on the example thread returns
`[message 1]`, a subsequence of the stored messages. -/
theorem extract_context_messages_sublist_witness :
    List.Sublist [exampleMessage1] exampleThread1.messages :=
  extract_context_messages_sublist exampleThread1 exampleDecision123 false
    [exampleMessage1] rfl

/-- C10: `_split_message` is the identity (a single unchanged chunk) on
any content whose length is at most `max_length`, including the empty
string: no stripping or line-break normalization happens below the
limit. -/
theorem split_message_short_identity :
    ∀ (content : String) (max_length : Nat),
      content.length ≤ max_length → _split_message content max_length = [content] := by
  intro content max_length h
  simp [_split_message, h]

/-- C10 witness: a short string is returned unchanged. -/
theorem split_message_short_identity_witness :
    _split_message "This is a short message" 2000 = ["This is a short message"] :=
  split_message_short_identity "This is a short message" 2000 (by decide)

theorem takeWhile_eq_nil_of_all_false {α : Type} {p : α → Bool} {l : List α}
    (h : ∀ x ∈ l, p x = false) : l.takeWhile p = [] := by
  cases l with
  | nil => rfl
  | cons a t =>
      have ha := h a (by simp)
      simp [List.takeWhile_cons, ha]

theorem dropWhile_eq_self_of_all_false {α : Type} {p : α → Bool} {l : List α}
    (h : ∀ x ∈ l, p x = false) : l.dropWhile p = l := by
  cases l with
  | nil => rfl
  | cons a t =>
      have ha := h a (by simp)
      simp [List.dropWhile_cons, ha]

theorem pyStripChars_no_ws {l : List Char}
    (h : ∀ x ∈ l, isPySpace x = false) : pyStripChars l = l := by
  unfold pyStripChars
  rw [dropWhile_eq_self_of_all_false (fun x hx => h x (List.mem_reverse.mp hx)),
    List.reverse_reverse, dropWhile_eq_self_of_all_false h]

theorem pySplit_no_sep {sep : Char} :
    ∀ {l : List Char}, (∀ x ∈ l, ¬ x = sep) → pySplit sep l = [l] := by
  intro l h
  induction l with
  | nil => rfl
  | cons c t ih =>
      have hc : ¬ c = sep := h c (by simp)
      have ht := ih (fun x hx => h x (by simp [hx]))
      simp [pySplit, hc, ht]

theorem sentenceSplitAux_no_punct :
    ∀ (l : List Char) (fuel : Nat) (acc : List Char),
      l.length ≤ fuel → (∀ x ∈ l, isSentencePunct x = false) →
      sentenceSplitAux fuel l acc = [acc.reverse ++ l] := by
  intro l
  induction l with
  | nil =>
      intro fuel acc hf h
      cases fuel with
      | zero => simp [sentenceSplitAux]
      | succ f => simp [sentenceSplitAux]
  | cons c t ih =>
      intro fuel acc hf h
      cases fuel with
      | zero => simp at hf
      | succ f =>
          have hc : isSentencePunct c = false := h c (by simp)
          have ht := ih f (c :: acc) (by simpa using hf)
            (fun x hx => h x (by simp [hx]))
          simp [sentenceSplitAux, hc, ht]

theorem sentenceSplitAux_step_skip (fuel : Nat) (c : Char) (rest acc : List Char)
    (h : isSentencePunct c = false) :
    sentenceSplitAux (fuel + 1) (c :: rest) acc = sentenceSplitAux fuel rest (c :: acc) := by
  simp [sentenceSplitAux, h]

theorem sentenceSplitAux_step_match (fuel : Nat) (c : Char) (rest acc : List Char)
    (hc : isSentencePunct c = true)
    (hsp : ((c :: rest).dropWhile isSentencePunct).takeWhile isPySpace ≠ []) :
    sentenceSplitAux (fuel + 1) (c :: rest) acc
      = acc.reverse :: ((c :: rest).takeWhile isSentencePunct
          ++ ((c :: rest).dropWhile isSentencePunct).takeWhile isPySpace)
        :: sentenceSplitAux fuel
            (((c :: rest).dropWhile isSentencePunct).dropWhile isPySpace) [] := by
  have hie : (((c :: rest).dropWhile isSentencePunct).takeWhile isPySpace).isEmpty
      = false := by
    rcases h' : ((c :: rest).dropWhile isSentencePunct).takeWhile isPySpace with
      _ | ⟨s, ss⟩
    · exact absurd h' hsp
    · rfl
  simp only [sentenceSplitAux]
  rw [if_pos hc, if_neg (by rw [hie]; simp)]

theorem splitLinesLoop_nil (maxLen : Nat) (chunksAcc : List (List Char))
    (current : List Char) :
    splitLinesLoop maxLen [] chunksAcc current
      = if current ≠ [] then chunksAcc ++ [pyStripChars current] else chunksAcc := rfl

theorem splitLinesLoop_cons_long (maxLen : Nat) (line : List Char)
    (rest chunksAcc : List (List Char)) (current : List Char)
    (h : line.length > maxLen) :
    splitLinesLoop maxLen (line :: rest) chunksAcc current
      = splitLinesLoop maxLen rest
          ((sentenceSplit line).foldl (sentenceLoop maxLen) (chunksAcc, current)).1
          ((sentenceSplit line).foldl (sentenceLoop maxLen) (chunksAcc, current)).2 := by
  simp [splitLinesLoop, h]

theorem sentenceSplit_b_dot_space (l : List Char)
    (hp : ∀ x ∈ l, isSentencePunct x = false)
    (hs : ∀ x ∈ l, isPySpace x = false) :
    sentenceSplit ('b' :: '.' :: ' ' :: l) = [['b'], ['.', ' '], l] := by
  have htw : List.takeWhile isPySpace l = [] := takeWhile_eq_nil_of_all_false hs
  have hdw : List.dropWhile isPySpace l = l := dropWhile_eq_self_of_all_false hs
  have h1 : List.takeWhile isSentencePunct ('.' :: ' ' :: l) = ['.'] := by
    rw [List.takeWhile_cons, if_pos (by decide), List.takeWhile_cons, if_neg (by decide)]
  have h2 : List.dropWhile isSentencePunct ('.' :: ' ' :: l) = ' ' :: l := by
    rw [List.dropWhile_cons, if_pos (by decide), List.dropWhile_cons, if_neg (by decide)]
  have h3 : List.takeWhile isPySpace (' ' :: l) = [' '] := by
    rw [List.takeWhile_cons, if_pos (by decide), htw]
  have h4 : List.dropWhile isPySpace (' ' :: l) = l := by
    rw [List.dropWhile_cons, if_pos (by decide), hdw]
  have htail := sentenceSplitAux_no_punct l (l.length + 1) [] (Nat.le_succ _) hp
  unfold sentenceSplit
  rw [show ('b' :: '.' :: ' ' :: l).length = ((l.length + 1) + 1) + 1 from by simp]
  rw [sentenceSplitAux_step_skip _ _ _ _ (by decide)]
  rw [sentenceSplitAux_step_match _ _ _ _ (by decide) (by rw [h2, h3]; simp)]
  rw [h1, h2, h3, h4, htail]
  simp

/-- Symbolic evaluation of `_split_message` on `"b. "` followed by an
unbreakable 2001-character tail: the sentence loop flushes `"b."`, takes
the oversized second sentence as the current chunk, and the final flush
emits it without re-checking its length. -/
theorem split_message_force_eval_gen (l : List Char) (hlen : l.length = 2001)
    (hp : ∀ x ∈ l, isSentencePunct x = false)
    (hs : ∀ x ∈ l, isPySpace x = false)
    (hnl : ∀ x ∈ l, ¬ x = '\n') :
    _split_message (String.mk ('b' :: '.' :: ' ' :: l)) 2000
      = [String.mk ['b', '.'], String.mk l] := by
  have hlen4 : ('b' :: '.' :: ' ' :: l).length = 2004 := by simp [hlen]
  have hnl4 : ∀ x ∈ ('b' :: '.' :: ' ' :: l), ¬ x = '\n' := by
    intro x hx
    simp only [List.mem_cons] at hx
    rcases hx with rfl | rfl | rfl | hx
    · decide
    · decide
    · decide
    · exact hnl x hx
  have hne : l ≠ [] := by
    intro h
    rw [h] at hlen
    simp at hlen
  unfold _split_message
  rw [if_neg (by rw [String.length_mk, hlen4]; omega)]
  rw [show (String.mk ('b' :: '.' :: ' ' :: l)).toList = 'b' :: '.' :: ' ' :: l from rfl]
  rw [pySplit_no_sep hnl4]
  rw [splitLinesLoop_cons_long _ _ _ _ _ (by rw [hlen4]; omega)]
  rw [sentenceSplit_b_dot_space l hp hs]
  have hf1 : sentenceLoop 2000 (([] : List (List Char)), ([] : List Char)) ['b']
      = ([], ['b']) := by
    simp [sentenceLoop]
  have hf2 : sentenceLoop 2000 (([] : List (List Char)), ['b']) ['.', ' ']
      = ([], ['b', '.', ' ']) := by
    simp [sentenceLoop]
  have hf3 : sentenceLoop 2000 (([] : List (List Char)), ['b', '.', ' ']) l
      = ([['b', '.']], l) := by
    unfold sentenceLoop
    dsimp only
    rw [if_pos (by simp [hlen]), if_pos (by simp)]
    rw [show pyStripChars ['b', '.', ' '] = ['b', '.'] from rfl]
    simp
  simp only [List.foldl_cons, List.foldl_nil, hf1, hf2, hf3]
  rw [splitLinesLoop_nil, if_pos hne]
  rw [pyStripChars_no_ws hs]
  rfl

/-- C8: evaluating `_split_message` at the failing input
`"b. "` + 2001 `'c'`s (a single 2004-character line): the result has
chunks of lengths 2 and 2001, so the claimed maximum-length bound of 2000
is violated — a sentence longer than the limit becomes the current chunk
and is later emitted without re-checking its length. -/
theorem split_message_bound_violation :
    forceSplitInput.length = 2004
    ∧ (_split_message forceSplitInput 2000).map String.length = [2, 2001]
    ∧ ¬ (∀ c ∈ _split_message forceSplitInput 2000, c.length ≤ 2000) := by
  have hp : ∀ x ∈ List.replicate 2001 'c', isSentencePunct x = false := by
    intro x hx
    rw [List.mem_replicate] at hx
    rw [hx.2]
    decide
  have hs : ∀ x ∈ List.replicate 2001 'c', isPySpace x = false := by
    intro x hx
    rw [List.mem_replicate] at hx
    rw [hx.2]
    decide
  have hnl : ∀ x ∈ List.replicate 2001 'c', ¬ x = '\n' := by
    intro x hx
    rw [List.mem_replicate] at hx
    rw [hx.2]
    decide
  have heval : _split_message forceSplitInput 2000
      = [String.mk ['b', '.'], String.mk (List.replicate 2001 'c')] :=
    split_message_force_eval_gen (List.replicate 2001 'c')
      (List.length_replicate 2001 'c') hp hs hnl
  have hmap : (_split_message forceSplitInput 2000).map String.length = [2, 2001] := by
    rw [heval]
    simp only [List.map_cons, List.map_nil, String.length_mk,
      List.length_replicate]
    rfl
  have hflen : forceSplitInput.length = 2004 := by
    rw [show forceSplitInput = String.mk ('b' :: '.' :: ' ' :: List.replicate 2001 'c')
        from rfl, String.length_mk]
    simp only [List.length_cons, List.length_replicate]
  refine ⟨hflen, hmap, ?_⟩
  intro hall
  have h2001 : (2001 : Nat) ∈ (_split_message forceSplitInput 2000).map String.length := by
    rw [hmap]
    simp
  obtain ⟨c, hc, hlenc⟩ := List.mem_map.mp h2001
  have := hall c hc
  omega

theorem mem_appendToThread (t : ConversationThread) (msg : ConversationMessage)
    (now maxMsgs : Nat) (h : 0 < maxMsgs) :
    msg ∈ (appendToThread t msg now maxMsgs).messages := by
  unfold appendToThread
  dsimp only
  rw [List.drop_append_eq_append_drop]
  have hn : (t.messages ++ [msg]).length - maxMsgs - t.messages.length = 0 := by
    simp
    omega
  rw [hn]
  exact List.mem_append_right _ (by simp)

theorem storeRouteDecision_fst_messages (store : ConversationStore)
    (msg : ConversationMessage) (d : RouterDecision) (now : Nat) :
    (storeRouteDecision store msg d now).1.messages
      = (storeRouteDecisionCore store msg d now).1.messages := by
  unfold storeRouteDecision
  split <;> rfl

theorem storeRouteDecision_fst_id (store : ConversationStore)
    (msg : ConversationMessage) (d : RouterDecision) (now : Nat) :
    (storeRouteDecision store msg d now).1.id
      = (storeRouteDecisionCore store msg d now).1.id := by
  unfold storeRouteDecision
  split <;> rfl

theorem create_conversation_fst_messages (store : ConversationStore)
    (ch : String) (msg : ConversationMessage) (now : Nat) :
    (store.create_conversation ch msg now).1.messages = [msg] := rfl

theorem storeRouteDecisionCore_resolved (store : ConversationStore)
    (msg : ConversationMessage) (d : RouterDecision) (now : Nat)
    (c : ConversationThread)
    (hopt : optNonempty d.conversation_id = true)
    (hc : store.get_conversation (d.conversation_id.getD "") = some c) :
    storeRouteDecisionCore store msg d now
      = (appendToThread c msg now store.max_messages_per_conversation,
         store.add_message c.id msg now) := by
  unfold storeRouteDecisionCore
  rw [if_pos hopt]
  split
  · rename_i conv heq
    rw [hc] at heq
    cases heq
    rfl
  · rename_i heq
    rw [hc] at heq
    cases heq

theorem storeRouteDecisionCore_unresolved (store : ConversationStore)
    (msg : ConversationMessage) (d : RouterDecision) (now : Nat)
    (h : optNonempty d.conversation_id = false
      ∨ store.get_conversation (d.conversation_id.getD "") = none) :
    storeRouteDecisionCore store msg d now
      = store.create_conversation msg.channel_id msg now := by
  unfold storeRouteDecisionCore
  rcases h with h | h
  · rw [if_neg (by simp [h])]
  · by_cases hopt : optNonempty d.conversation_id = true
    · rw [if_pos hopt]
      split
      · rename_i conv heq
        rw [h] at heq
        cases heq
      · rfl
    · rw [if_neg hopt]

/-- C3: the STORE step is total on the decision's `conversation_id`: a
resolving id appends the message to that thread; a dangling id or an
absent id yields a freshly created thread seeded with the message; in
every case the produced thread holds the incoming message. -/
theorem store_route_decision_spec :
    ∀ (store : ConversationStore) (conv_message : ConversationMessage)
      (decision : RouterDecision) (now : Nat),
      0 < store.max_messages_per_conversation →
      (conv_message ∈ (storeRouteDecision store conv_message decision now).1.messages
       ∧ (∀ cid c, decision.conversation_id = some cid → cid ≠ "" →
            store.get_conversation cid = some c →
            (storeRouteDecision store conv_message decision now).1.id = c.id)
       ∧ ((match decision.conversation_id with
           | some cid => cid = "" ∨ store.get_conversation cid = none
           | none => True) →
           (storeRouteDecision store conv_message decision now).1.messages
             = [conv_message])) := by
  intro store msg d now hmax
  have hmsgs := storeRouteDecision_fst_messages store msg d now
  have hid := storeRouteDecision_fst_id store msg d now
  refine ⟨?_, ?_, ?_⟩
  · rw [hmsgs]
    by_cases hopt : optNonempty d.conversation_id = true
    · rcases hc : store.get_conversation (d.conversation_id.getD "") with _ | c
      · rw [storeRouteDecisionCore_unresolved store msg d now (Or.inr hc),
          create_conversation_fst_messages]
        simp
      · rw [storeRouteDecisionCore_resolved store msg d now c hopt hc]
        exact mem_appendToThread c msg now _ hmax
    · rw [storeRouteDecisionCore_unresolved store msg d now
        (Or.inl (by simpa using hopt)), create_conversation_fst_messages]
      simp
  · intro cid c hcid hne hget
    rw [hid]
    have hopt : optNonempty d.conversation_id = true := by
      rw [hcid]
      simpa [optNonempty] using hne
    have hc : store.get_conversation (d.conversation_id.getD "") = some c := by
      rw [hcid]
      exact hget
    rw [storeRouteDecisionCore_resolved store msg d now c hopt hc]
    rfl
  · intro hdang
    rw [hmsgs]
    rcases hopt : d.conversation_id with _ | cid
    · rw [storeRouteDecisionCore_unresolved store msg d now
        (Or.inl (by rw [hopt]; rfl)), create_conversation_fst_messages]
    · rw [hopt] at hdang
      by_cases hne : cid = ""
      · rw [storeRouteDecisionCore_unresolved store msg d now
          (Or.inl (by rw [hopt]; simp [optNonempty, hne])),
          create_conversation_fst_messages]
      · rcases hdang with h | h
        · exact absurd h hne
        · rw [storeRouteDecisionCore_unresolved store msg d now
            (Or.inr (by rw [hopt]; exact h)), create_conversation_fst_messages]

/-- C3 witness: with an absent `conversation_id` and a store that keeps
up to 50 messages per thread, the produced thread holds exactly the
incoming message. -/
theorem store_route_decision_spec_witness :
    exampleMessage1 ∈
      (storeRouteDecision exampleStore exampleMessage1 exampleDecision123 0).1.messages :=
  (store_route_decision_spec exampleStore exampleMessage1 exampleDecision123 0
    (by decide)).1

theorem dispatchPhase_responds (cfg : BotConfig) (store : ConversationStore)
    (conversation : ConversationThread) (msg : ConversationMessage)
    (ep : Option PersonaConfig) (im : Bool) (ms : Option String)
    (d : RouterDecision) (ack : ConversationMessage) (now : Nat)
    (h : d.should_respond = true) :
    responseSent (dispatchPhase cfg store conversation msg ep im ms d ack now).2
      = true := by
  unfold dispatchPhase
  dsimp only
  repeat' split
  all_goals simp_all [responseSent]

/-- C1: when the router decision abstains (`should_respond = false`), an
explicit mention forces the safety override and a response is produced,
while without a mention the orchestrator terminates in the no-response
state without invoking any responder. -/
theorem safety_override_spec :
    ∀ (cfg : BotConfig) (store : ConversationStore)
      (conv_message : ConversationMessage) (explicit_persona : Option PersonaConfig)
      (is_mentioned : Bool) (mention_string : Option String)
      (decision : RouterDecision) (ack : ConversationMessage) (now : Nat),
      decision.should_respond = false →
      ((is_mentioned = true →
         responseSent (_handle_message_with_router cfg store conv_message
            explicit_persona is_mentioned mention_string (.ok decision) ack now).2
           = true)
       ∧ (is_mentioned = false →
         (_handle_message_with_router cfg store conv_message explicit_persona
            is_mentioned mention_string (.ok decision) ack now).2
           = HandlerOutcome.noResponse)) := by
  intro cfg store msg ep im ms d ack now hsr
  constructor
  · intro him
    unfold _handle_message_with_router
    dsimp only
    rw [if_pos (show ¬ d.should_respond = true by simp [hsr]), if_pos him]
    exact dispatchPhase_responds cfg _ _ msg ep im ms _ ack now rfl
  · intro him
    unfold _handle_message_with_router
    dsimp only
    rw [if_pos (show ¬ d.should_respond = true by simp [hsr]),
      if_neg (show ¬ im = true by simp [him])]

/-- C1 witness: an abstaining decision together with an explicit mention
still produces a response. -/
theorem safety_override_spec_witness :
    responseSent (_handle_message_with_router exampleBotConfig exampleStore
      exampleMessage1 none true none (.ok exampleDecisionNoRespond)
      exampleMessage1 0).2 = true :=
  (safety_override_spec exampleBotConfig exampleStore exampleMessage1 none true none
    exampleDecisionNoRespond exampleMessage1 0 rfl).1 rfl

theorem foldl_most_recent_mem :
    ∀ (rest : List ConversationThread) (t : ConversationThread),
      (rest.foldl (fun best u =>
        if u.last_active > best.last_active then u else best) t) ∈ t :: rest := by
  intro rest
  induction rest with
  | nil => intro t; simp
  | cons u rest ih =>
      intro t
      rw [List.foldl_cons]
      have h := ih (if u.last_active > t.last_active then u else t)
      rcases List.mem_cons.mp h with h' | h'
      · rw [h']
        by_cases hgt : u.last_active > t.last_active
        · rw [if_pos hgt]
          exact List.mem_cons.mpr (Or.inr (List.mem_cons_self u rest))
        · rw [if_neg hgt]
          exact List.mem_cons_self _ _
      · exact List.mem_cons.mpr (Or.inr (List.mem_cons.mpr (Or.inr h')))

theorem mostRecentlyActive_mem {l : List ConversationThread}
    {c : ConversationThread} (h : mostRecentlyActive l = some c) : c ∈ l := by
  cases l with
  | nil => cases h
  | cons t rest =>
      have := Option.some.inj h
      rw [← this]
      exact foldl_most_recent_mem rest t

theorem minLastActive_le :
    ∀ (rest : List ConversationThread) (t : ConversationThread),
      ∀ u ∈ t :: rest, minLastActive t rest ≤ u.last_active := by
  intro rest
  induction rest with
  | nil =>
      intro t u hu
      rcases List.mem_singleton.mp hu with rfl
      simp [minLastActive]
  | cons v rest ih =>
      intro t u hu
      unfold minLastActive
      rcases List.mem_cons.mp hu with h | h
      · rw [h]
        exact min_le_left _ _
      · exact le_trans (min_le_right _ _) (ih v u h)

theorem minLastActive_attained :
    ∀ (rest : List ConversationThread) (t : ConversationThread),
      ∃ u ∈ t :: rest, u.last_active = minLastActive t rest := by
  intro rest
  induction rest with
  | nil => intro t; exact ⟨t, by simp, rfl⟩
  | cons v rest ih =>
      intro t
      obtain ⟨u, hu, he⟩ := ih v
      by_cases h : t.last_active ≤ minLastActive v rest
      · refine ⟨t, by simp, ?_⟩
        unfold minLastActive
        omega
      · refine ⟨u, List.mem_cons.mpr (Or.inr hu), ?_⟩
        unfold minLastActive
        omega

theorem removeFirstWithLA_subset :
    ∀ (v : Nat) (l : List ConversationThread),
      ∀ u ∈ removeFirstWithLA v l, u ∈ l := by
  intro v l
  induction l with
  | nil => intro u hu; cases hu
  | cons a l ih =>
      intro u hu
      unfold removeFirstWithLA at hu
      by_cases ha : a.last_active = v
      · rw [if_pos ha] at hu
        exact List.mem_cons.mpr (Or.inr hu)
      · rw [if_neg ha] at hu
        rcases List.mem_cons.mp hu with h | h
        · exact List.mem_cons.mpr (Or.inl h)
        · exact List.mem_cons.mpr (Or.inr (ih u h))

theorem removeFirstWithLA_append_of_attained :
    ∀ (l : List ConversationThread) (t : ConversationThread) (v : Nat),
      (∃ u ∈ l, u.last_active = v) →
      removeFirstWithLA v (l ++ [t]) = removeFirstWithLA v l ++ [t] := by
  intro l
  induction l with
  | nil =>
      intro t v h
      obtain ⟨u, hu, -⟩ := h
      cases hu
  | cons a l ih =>
      intro t v h
      by_cases ha : a.last_active = v
      · simp only [List.cons_append, removeFirstWithLA, if_pos ha, List.append_eq]
      · simp only [List.cons_append, removeFirstWithLA, if_neg ha, List.append_eq]
        obtain ⟨u, hu, he⟩ := h
        rcases List.mem_cons.mp hu with h' | h'
        · rw [h'] at he
          exact absurd he ha
        · rw [ih t v ⟨u, h', he⟩]

theorem removeStalest_append (l : List ConversationThread)
    (t : ConversationThread) (hl : l ≠ [])
    (hle : ∀ u ∈ l, u.last_active ≤ t.last_active) :
    ∃ l', removeStalest (l ++ [t]) = l' ++ [t] ∧ ∀ u ∈ l', u ∈ l := by
  rcases l with _ | ⟨a, l₂⟩
  · exact absurd rfl hl
  have hatt : ∃ u ∈ a :: l₂, u.last_active = minLastActive a (l₂ ++ [t]) := by
    obtain ⟨u, hu, he⟩ := minLastActive_attained (l₂ ++ [t]) a
    rcases List.mem_cons.mp hu with h | h
    · exact ⟨u, by rw [h]; exact List.mem_cons_self a l₂, he⟩
    · rcases List.mem_append.mp h with h' | h'
      · exact ⟨u, List.mem_cons.mpr (Or.inr h'), he⟩
      · have hut := List.mem_singleton.mp h'
        refine ⟨a, List.mem_cons_self a l₂, ?_⟩
        have h1 := minLastActive_le (l₂ ++ [t]) a a (List.mem_cons_self _ _)
        have h2 := hle a (List.mem_cons_self a l₂)
        rw [hut] at he
        omega
  refine ⟨removeFirstWithLA (minLastActive a (l₂ ++ [t])) (a :: l₂), ?_, ?_⟩
  · show removeFirstWithLA (minLastActive a (l₂ ++ [t])) (a :: (l₂ ++ [t])) = _
    rw [show a :: (l₂ ++ [t]) = (a :: l₂) ++ [t] from rfl]
    exact removeFirstWithLA_append_of_attained (a :: l₂) t _ hatt
  · exact removeFirstWithLA_subset _ _

theorem mem_evictLoop_append_last :
    ∀ (fuel mx : Nat) (l : List ConversationThread) (t : ConversationThread),
      0 < mx → (∀ u ∈ l, u.last_active ≤ t.last_active) →
      t ∈ evictLoop mx fuel (l ++ [t]) := by
  intro fuel
  induction fuel with
  | zero =>
      intro mx l t hmx hle
      simp [evictLoop]
  | succ f ih =>
      intro mx l t hmx hle
      unfold evictLoop
      by_cases hlen : (l ++ [t]).length ≤ mx
      · rw [if_pos hlen]
        exact List.mem_append_right _ (by simp)
      · rw [if_neg hlen]
        have hl : l ≠ [] := by
          intro h
          rw [h] at hlen
          simp at hlen
          omega
        obtain ⟨l', heq, hsub⟩ := removeStalest_append l t hl hle
        rw [heq]
        exact ih mx l' t hmx (fun u hu => hle u (hsub u hu))

theorem create_conversation_mem (store : ConversationStore) (ch : String)
    (msg : ConversationMessage) (now : Nat)
    (hmx : 0 < store.max_conversations)
    (hwf : ∀ u ∈ store.conversations, u.last_active ≤ now) :
    (store.create_conversation ch msg now).1
      ∈ (store.create_conversation ch msg now).2.conversations := by
  unfold ConversationStore.create_conversation
  exact mem_evictLoop_append_last _ _ store.conversations _ hmx hwf

theorem get_or_create_records (store : ConversationStore) (ch : String)
    (msg : ConversationMessage) (now : Nat)
    (hmm : 0 < store.max_messages_per_conversation)
    (hmx : 0 < store.max_conversations)
    (hwf : ∀ u ∈ store.conversations, u.last_active ≤ now) :
    ∃ th ∈ (store.get_or_create_conversation ch msg now).2.conversations,
      msg ∈ th.messages := by
  unfold ConversationStore.get_or_create_conversation
  split
  · rename_i c heq
    refine ⟨appendToThread c msg now store.max_messages_per_conversation, ?_,
      mem_appendToThread c msg now _ hmm⟩
    have hc : c ∈ store.conversations :=
      List.mem_of_mem_filter (mostRecentlyActive_mem heq)
    unfold ConversationStore.add_message
    refine List.mem_map.mpr ⟨c, hc, ?_⟩
    rw [if_pos (by simp)]
  · exact ⟨(store.create_conversation ch msg now).1,
      create_conversation_mem store ch msg now hmx hwf,
      by rw [create_conversation_fst_messages]; simp⟩

/-- C2: when the decision-maker invocation raises, an explicit mention
yields a best-effort apology (attributed to the explicitly mentioned
persona when there is one) that is sent and recorded into the
conversation store, while without an explicit mention nothing is sent and
the store is untouched. -/
theorem router_error_fallback_spec :
    ∀ (cfg : BotConfig) (store : ConversationStore)
      (conv_message : ConversationMessage) (explicit_persona : Option PersonaConfig)
      (is_mentioned : Bool) (mention_string : Option String)
      (ack : ConversationMessage) (now : Nat),
      0 < store.max_messages_per_conversation →
      0 < store.max_conversations →
      (∀ t ∈ store.conversations, t.last_active ≤ now) →
      ((is_mentioned = true →
          (_handle_message_with_router cfg store conv_message explicit_persona
            is_mentioned mention_string (.error ()) ack now).2
            = .errorApology (explicit_persona.map (fun p => p.name))
          ∧ responseSent
              (.errorApology (explicit_persona.map (fun p => p.name))) = true
          ∧ ∃ th ∈ (_handle_message_with_router cfg store conv_message
                explicit_persona is_mentioned mention_string (.error ())
                ack now).1.conversations,
              ({ ack with persona_name := explicit_persona.map (fun p => p.name) }
                : ConversationMessage) ∈ th.messages)
       ∧ (is_mentioned = false →
          _handle_message_with_router cfg store conv_message explicit_persona
            is_mentioned mention_string (.error ()) ack now = (store, .errorSilent)
          ∧ responseSent .errorSilent = false)) := by
  intro cfg store msg ep im ms ack now hmm hmx hwf
  constructor
  · intro him
    unfold _handle_message_with_router
    rw [if_pos him]
    unfold _handle_router_error_fallback
    refine ⟨rfl, rfl, ?_⟩
    exact get_or_create_records store ack.channel_id _ now hmm hmx hwf
  · intro him
    unfold _handle_message_with_router
    rw [if_neg (by simp [him])]
    exact ⟨rfl, rfl⟩

/-- C2 witness: a failing ROUTE step on a mentioned message yields the
apology outcome. -/
theorem router_error_fallback_spec_witness :
    (_handle_message_with_router exampleBotConfig exampleStore exampleMessage1 none
      true none (.error ()) exampleMessage1 0).2 = .errorApology none :=
  ((router_error_fallback_spec exampleBotConfig exampleStore exampleMessage1 none
    true none exampleMessage1 0 (by decide) (by decide) (by simp [exampleStore])).1
    rfl).1

end DiscordHack
